import Mathlib

/-!
Verification of the data-preprocessing pipeline in
src/data/data_preprocess.py.

The script is a four-stage linear pipeline over an in-memory table:
load (pd.read_csv), column projection (df[columns_for_viz]),
row filtering (df.dropna(subset=...)), and serialization
(to_json(orient='records')).

Shallow embedding: a table is a header (list of column names) together
with rows of cells; a cell is `Option String`, with `none` standing for
pandas NaN/null.  pandas read_csv turns each field that is one of its
default NA tokens (the empty string among them) into NaN; other fields
are kept as their textual value (dtype conversion of numeric columns is
abstracted away: cell identity is what the claims are about).
The serialized output is modelled as the parsed list of records, one
association list per surviving row.
-/

/-- A table cell; `none` models pandas NaN/null. -/
abbrev Cell := Option String

/-- In-memory table: column header plus rows of cells (a dataframe). -/
structure Table where
  header : List String
  rows : List (List Cell)
deriving Repr, DecidableEq

/-- The default NA tokens of pandas read_csv: a field equal to one of
these parses to NaN. -/
def naValues : List String :=
  ["", "#N/A", "#N/A N/A", "#NA", "-1.#IND", "-1.#QNAN", "-NaN", "-nan",
   "1.#IND", "1.#QNAN", "<NA>", "N/A", "NA", "NULL", "NaN", "None",
   "n/a", "nan", "null"]

/-- A raw CSV field becomes a cell: NA tokens become null. -/
def parseCell (s : String) : Cell :=
  if s ∈ naValues then none else some s

/-- Loader (line 3, pd.read_csv): header row plus raw field rows. -/
def read_csv (header : List String) (rawRows : List (List String)) : Table :=
  ⟨header, rawRows.map (List.map parseCell)⟩

/-- Index of the first occurrence of a column name in a header (pandas
column lookup). -/
def colIdx (header : List String) (c : String) : Option Nat :=
  match header with
  | [] => none
  | h :: t => if h = c then some 0 else (colIdx t c).map (· + 1)

/-- The cell a row holds for a named column; `none` when the column is
absent from the header or the row is too short. -/
def rowGet (header : List String) (r : List Cell) (c : String) : Cell :=
  match colIdx header c with
  | some i => r.getD i none
  | none => none

/-- The hardcoded column selection (line 4, columns_for_viz). -/
def columns_for_viz : List String :=
  ["Age", "YearsCodePro", "Country", "Currency", "CompTotal",
   "ConvertedCompYearly", "LanguageHaveWorkedWith",
   "NEWCollabToolsHaveWorkedWith", "OpSysProfessional use", "AISelect"]

/-- Projector (line 5, df[columns_for_viz]): keep the named columns in
the given order; `none` models the uncaught KeyError pandas raises when
a requested column is absent from the header. -/
def project (t : Table) (cols : List String) : Option Table :=
  if cols.all (fun c => t.header.contains c) then
    some ⟨cols, t.rows.map (fun r => cols.map (fun c => rowGet t.header r c))⟩
  else
    none

/-- The subset argument of dropna (line 6): nine columns — every
selected column except ConvertedCompYearly. -/
def dropnaSubset : List String :=
  ["Age", "YearsCodePro", "Country", "Currency", "CompTotal",
   "LanguageHaveWorkedWith", "NEWCollabToolsHaveWorkedWith",
   "OpSysProfessional use", "AISelect"]

/-- A row passes the null-check when every column of the subset holds a
non-null cell. -/
def rowComplete (header : List String) (subset : List String)
    (r : List Cell) : Bool :=
  subset.all (fun c => (rowGet header r c).isSome)

/-- Filter (line 6, df.dropna(subset=...)): keep the rows whose checked
columns are all non-null. -/
def dropna (t : Table) (subset : List String) : Table :=
  ⟨t.header, t.rows.filter (rowComplete t.header subset)⟩

/-- One serialized record of to_json(orient='records'): column name to
cell value, in column order. -/
abbrev Record := List (String × Cell)

/-- Serializer (line 7, df_clean.to_json(orient='records')): the parsed
content of the output file, one record per surviving row. -/
def toRecords (t : Table) : List Record :=
  t.rows.map (fun r => t.header.zip r)

/-- The whole script: load, project to columns_for_viz, dropna on the
nine-column subset, serialize.  `none` when projection fails. -/
def pipeline (header : List String) (rawRows : List (List String)) :
    Option (List Record) :=
  (project (read_csv header rawRows) columns_for_viz).map
    (fun df => toRecords (dropna df dropnaSubset))

/-- The raw-row survival predicate the pipeline effectively applies:
after loading, every column of the dropna subset is non-null. -/
def keepRaw (header : List String) (raw : List String) : Bool :=
  rowComplete header dropnaSubset (raw.map parseCell)

/-- The record the pipeline emits for a surviving raw row. -/
def recordOf (header : List String) (raw : List String) : Record :=
  columns_for_viz.zip
    (columns_for_viz.map (fun c => rowGet header (raw.map parseCell) c))

/-- The spec text's "Required-non-null set": all columns of the
selection set except ConvertedCompYearly and AISelect (eight columns).
Transcribed from the spec's words, to be compared with the code's
dropnaSubset. -/
def specRequiredNonNull : List String :=
  ["Age", "YearsCodePro", "Country", "Currency", "CompTotal",
   "LanguageHaveWorkedWith", "NEWCollabToolsHaveWorkedWith",
   "OpSysProfessional use"]

/-- The spec text's per-cell retention condition: the cell holds "a
non-null, non-empty value".  Transcribed from the spec's words. -/
def cellPresent (x : Cell) : Bool :=
  match x with
  | none => false
  | some v => v != ""

/-! ### Structural lemmas about the embedded operations -/

/-- Reading a column back out of a row built by mapping over the very
same column list returns the mapped value. -/
lemma rowGet_map_self (f : String → Cell) (c : String) :
    ∀ cols : List String, c ∈ cols → rowGet cols (cols.map f) c = f c := by
  intro cols hc
  induction cols with
  | nil => cases hc
  | cons a tl ih =>
    by_cases h : a = c
    · subst h
      simp [rowGet, colIdx]
    · have hctl : c ∈ tl := by
        rcases List.mem_cons.mp hc with h1 | h1
        · exact absurd h1.symm h
        · exact h1
      have htl := ih hctl
      simp only [rowGet, colIdx, List.map, if_neg h] at htl ⊢
      cases hidx : colIdx tl c with
      | none => rw [hidx] at htl; simpa using htl
      | some i =>
        rw [hidx] at htl
        simpa using htl

/-- Two pointwise-equal predicates give equal `all` results. -/
lemma all_congr_aux {α : Type} {l : List α} {p q : α → Bool}
    (h : ∀ a ∈ l, p a = q a) : l.all p = l.all q := by
  induction l with
  | nil => rfl
  | cons a tl ih =>
    simp only [List.all_cons, h a (List.mem_cons_self a tl),
      ih (fun b hb => h b (List.mem_cons_of_mem a hb))]

/-- The dropna subset is contained in the selected columns. -/
lemma dropnaSubset_subset_viz : ∀ c ∈ dropnaSubset, c ∈ columns_for_viz := by
  decide

/-- The null-check on a projected row agrees with the null-check on the
original row: projection commutes with the dropna predicate. -/
lemma rowComplete_proj (header : List String) (row : List Cell) :
    rowComplete columns_for_viz dropnaSubset
      (columns_for_viz.map (fun c => rowGet header row c))
      = rowComplete header dropnaSubset row := by
  unfold rowComplete
  apply all_congr_aux
  intro c hc
  rw [rowGet_map_self (fun c => rowGet header row c) c columns_for_viz
    (dropnaSubset_subset_viz c hc)]

/-- Every non-null cell of a loaded row is the text of a raw field that
is not an NA token; in particular it is never the empty string. -/
lemma rowGet_parse_not_na (header : List String) (raw : List String)
    (c v : String)
    (h : rowGet header (raw.map parseCell) c = some v) : v ∉ naValues := by
  unfold rowGet at h
  cases hidx : colIdx header c with
  | none =>
    rw [hidx] at h
    exact Option.noConfusion h
  | some i =>
    rw [hidx] at h
    have h2 : (raw.map parseCell).getD i none = some v := h
    rw [List.getD_eq_getElem?_getD, List.getElem?_map] at h2
    cases hr : raw[i]? with
    | none => rw [hr] at h2; exact Option.noConfusion h2
    | some s =>
      rw [hr] at h2
      simp only [Option.map_some', Option.getD_some] at h2
      unfold parseCell at h2
      by_cases hs : s ∈ naValues
      · rw [if_pos hs] at h2; exact Option.noConfusion h2
      · rw [if_neg hs] at h2
        have hsv : s = v := Option.some.inj h2
        subst hsv
        exact hs

/-- The serialized rows of the projected-then-filtered table are exactly
the surviving raw rows, in order, turned into records. -/
lemma toRecords_dropna_project (header : List String)
    (rawRows : List (List String)) :
    toRecords (dropna
        ⟨columns_for_viz,
         (rawRows.map (List.map parseCell)).map
           (fun r => columns_for_viz.map (fun c => rowGet header r c))⟩
        dropnaSubset)
      = (rawRows.filter (keepRaw header)).map (recordOf header) := by
  induction rawRows with
  | nil => rfl
  | cons raw tl ih =>
    have hpred : rowComplete columns_for_viz dropnaSubset
        (columns_for_viz.map (fun c => rowGet header (raw.map parseCell) c))
        = keepRaw header raw := rowComplete_proj header (raw.map parseCell)
    simp only [toRecords, dropna, List.map_cons, List.filter_cons, hpred]
      at ih ⊢
    cases hk : keepRaw header raw with
    | true => simpa [hk, recordOf] using ih
    | false => simpa [hk] using ih

/-- Master lemma: when every selected column is present in the header,
the pipeline succeeds and its output is the record of each raw row that
passes the nine-column null check, in input order. -/
lemma pipeline_eq_filter_map (header : List String)
    (rawRows : List (List String))
    (h : columns_for_viz.all (fun c => header.contains c) = true) :
    pipeline header rawRows
      = some ((rawRows.filter (keepRaw header)).map (recordOf header)) := by
  unfold pipeline project read_csv
  rw [if_pos h]
  simp only [Option.map_some']
  exact congrArg some (toRecords_dropna_project header rawRows)

/-- Looking a column up in a record zipped from the very column list
returns the mapped value (first occurrence). -/
lemma lookup_zip_map (f : String → Cell) (c : String) :
    ∀ cols : List String, c ∈ cols →
      List.lookup c (cols.zip (cols.map f)) = some (f c) := by
  intro cols hc
  induction cols with
  | nil => cases hc
  | cons a tl ih =>
    simp only [List.map_cons, List.zip_cons_cons, List.lookup]
    by_cases h : c = a
    · subst h; simp
    · have hb : (c == a) = false := by simp [h]
      rw [hb]
      have hctl : c ∈ tl := by
        rcases List.mem_cons.mp hc with h1 | h1
        · exact absurd h1 h
        · exact h1
      exact ih hctl

/-- A surviving raw row is non-null on every column of the dropna
subset. -/
lemma keepRaw_col (header : List String) (raw : List String) (c : String)
    (hc : c ∈ dropnaSubset) (h : keepRaw header raw = true) :
    (rowGet header (raw.map parseCell) c).isSome = true := by
  unfold keepRaw rowComplete at h
  exact List.all_eq_true.mp h c hc

/-- The keys of an emitted record are exactly the selected columns, in
order. -/
lemma recordOf_keys (header : List String) (raw : List String) :
    (recordOf header raw).map Prod.fst = columns_for_viz := by
  unfold recordOf
  exact List.map_fst_zip _ _ (by simp)

/-- The value an emitted record holds for a selected column is the cell
the loaded row held for that column. -/
lemma recordOf_lookup (header : List String) (raw : List String)
    (c : String) (hc : c ∈ columns_for_viz) :
    List.lookup c (recordOf header raw)
      = some (rowGet header (raw.map parseCell) c) := by
  unfold recordOf
  exact lookup_zip_map _ c columns_for_viz hc

/-- On cells produced by loading, the dropna non-null check coincides
with the spec's non-null-and-non-empty condition: a loaded cell is never
the empty string. -/
lemma keepRaw_eq_present (header : List String) (raw : List String) :
    keepRaw header raw
      = dropnaSubset.all
          (fun c => cellPresent (rowGet header (raw.map parseCell) c)) := by
  unfold keepRaw rowComplete
  apply all_congr_aux
  intro c _
  cases hx : rowGet header (raw.map parseCell) c with
  | none => simp [cellPresent]
  | some v =>
    have hv : v ∉ naValues := rowGet_parse_not_na header raw c v hx
    have hne : v ≠ "" := fun he => hv (he ▸ (by decide : "" ∈ naValues))
    simp [cellPresent, hne]

/-! ### Concrete sample data used to instantiate the theorems -/

/-- A sample input header: the ten selected columns plus one extra
column, as in the survey file. -/
def wHeader : List String := "ResponseId" :: columns_for_viz

/-- A sample raw row that survives the filter; its ConvertedCompYearly
field is the NA token and loads as null. -/
def wRowGood : List String :=
  ["7", "25-34", "6", "Spain", "EUR", "50000", "NA", "Rust", "Slack",
   "MacOS", "Yes"]

/-- A sample raw row whose Country field is empty, hence null after
loading; the filter drops it. -/
def wRowBad : List String :=
  ["8", "25-34", "6", "", "EUR", "50000", "NA", "Rust", "Slack",
   "MacOS", "Yes"]

/-- The record the pipeline emits for wRowGood. -/
def wRecGood : Record :=
  [("Age", some "25-34"), ("YearsCodePro", some "6"),
   ("Country", some "Spain"), ("Currency", some "EUR"),
   ("CompTotal", some "50000"), ("ConvertedCompYearly", none),
   ("LanguageHaveWorkedWith", some "Rust"),
   ("NEWCollabToolsHaveWorkedWith", some "Slack"),
   ("OpSysProfessional use", some "MacOS"), ("AISelect", some "Yes")]

/-! ### The claims -/

/-- C10: the null-check filter on the code's checked-column set is
idempotent: applying dropna twice with the same subset yields the same
table as applying it once. -/
theorem claim_C10 (t : Table) :
    dropna (dropna t dropnaSubset) dropnaSubset = dropna t dropnaSubset := by
  cases t with
  | mk header rows =>
    simp only [dropna, List.filter_filter, Table.mk.injEq, true_and]
    congr 1
    funext r
    exact Bool.and_self _

/-- C8: the spec's scenario row (all checked fields present,
ConvertedCompYearly null) is retained, and the emitted record's
ConvertedCompYearly field is null. -/
theorem claim_C8 :
    (pipeline columns_for_viz
        [["25-34", "5", "USA", "USD", "90000", "", "Python", "VS Code",
          "Windows", "Yes"]]).map List.length = some 1
    ∧ (pipeline columns_for_viz
        [["25-34", "5", "USA", "USD", "90000", "", "Python", "VS Code",
          "Windows", "Yes"]]).map
        (List.map (List.lookup "ConvertedCompYearly")) = some [some none] := by
  decide

/-- C1 counterexample: a row that is non-null on all eight columns of
the spec's claimed required set, with a null AISelect, satisfies the
claim's survival condition yet is dropped by the pipeline: AISelect is
in fact a required column. -/
theorem claim_C1_counterexample :
    (∀ c ∈ specRequiredNonNull,
        (rowGet columns_for_viz
          ((["25-34", "5", "USA", "USD", "90000", "", "Python", "VS Code",
             "Windows", "NA"]).map parseCell) c).isSome = true)
    ∧ pipeline columns_for_viz
        [["25-34", "5", "USA", "USD", "90000", "", "Python", "VS Code",
          "Windows", "NA"]] = some [] := by
  decide

/-- C3 counterexample: an input whose single row is non-null on every
column of the spec's claimed required set (only AISelect is null) has
no row with a null in a claimed-required column, yet the output has
0 records instead of 1, so the claimed equality condition fails. -/
theorem claim_C3_counterexample :
    (∀ raw ∈ [["35-44", "10", "France", "EUR", "60000", "", "C++",
               "GitHub", "Linux", "NA"]],
        ∀ c ∈ specRequiredNonNull,
          (rowGet columns_for_viz (raw.map parseCell) c).isSome = true)
    ∧ (pipeline columns_for_viz
        [["35-44", "10", "France", "EUR", "60000", "", "C++",
          "GitHub", "Linux", "NA"]]).map List.length = some 0 := by
  decide

/-- C7 counterexample: on a two-row input where one row is null only in
AISelect, two rows satisfy the null-check on the spec's claimed
required columns, but the serialized output holds a single record. -/
theorem claim_C7_counterexample :
    (([["45-54", "20", "Japan", "JPY", "8000000", "NaN", "Java",
        "Teams", "Windows", "Yes"],
       ["45-54", "20", "Japan", "JPY", "8000000", "NaN", "Java",
        "Teams", "Windows", "NaN"]]).countP
      (fun raw => specRequiredNonNull.all
        (fun c => (rowGet columns_for_viz (raw.map parseCell) c).isSome))
      = 2)
    ∧ (pipeline columns_for_viz
        [["45-54", "20", "Japan", "JPY", "8000000", "NaN", "Java",
          "Teams", "Windows", "Yes"],
         ["45-54", "20", "Japan", "JPY", "8000000", "NaN", "Java",
          "Teams", "Windows", "NaN"]]).map List.length = some 1 := by
  decide

/-- C1 (amended): the required-non-null set is the selection set minus
ConvertedCompYearly only — a loaded row survives the filter iff each of
the nine dropna-subset columns (AISelect included) is non-null, and
every record of the output holds a non-null AISelect value. -/
theorem claim_C1_amended (header : List String) (raw : List String)
    (out : List Record)
    (hall : columns_for_viz.all (fun c => header.contains c) = true)
    (hout : pipeline header [raw] = some out) :
    (out ≠ [] ↔ rowComplete header dropnaSubset (raw.map parseCell) = true)
    ∧ ∀ rec ∈ out, List.lookup "AISelect" rec ≠ some none := by
  have hmaster := pipeline_eq_filter_map header [raw] hall
  rw [hout] at hmaster
  have hout2 : out = ([raw].filter (keepRaw header)).map (recordOf header) :=
    Option.some.inj hmaster
  subst hout2
  cases hk : keepRaw header raw with
  | false =>
    constructor
    · simp only [List.filter_cons, hk]
      unfold keepRaw at hk
      simp [hk]
    · intro rec hrec
      simp [List.filter_cons, hk] at hrec
  | true =>
    constructor
    · simp only [List.filter_cons, hk]
      unfold keepRaw at hk
      simp [hk]
    · intro rec hrec
      simp only [List.filter_cons, hk] at hrec
      have hrec2 : rec = recordOf header raw := by
        simpa using hrec
      subst hrec2
      rw [recordOf_lookup header raw "AISelect" (by decide)]
      have hsome := keepRaw_col header raw "AISelect" (by decide) hk
      intro hEq
      rw [Option.some.inj hEq] at hsome
      simp at hsome

theorem claim_C1_amended_witness :
    (([wRecGood] : List Record) ≠ [] ↔
        rowComplete wHeader dropnaSubset (wRowGood.map parseCell) = true)
    ∧ ∀ rec ∈ ([wRecGood] : List Record),
        List.lookup "AISelect" rec ≠ some none :=
  claim_C1_amended wHeader wRowGood [wRecGood] (by decide) (by decide)

/-- C2: the output retains exactly the input rows whose checked columns
all hold a non-null, non-empty value after loading, and a row whose
Country value is missing contributes no record to the output. -/
theorem claim_C2 (header : List String) (rawRows : List (List String))
    (out : List Record)
    (hall : columns_for_viz.all (fun c => header.contains c) = true)
    (hout : pipeline header rawRows = some out) :
    out = (rawRows.filter (fun raw => dropnaSubset.all
            (fun c => cellPresent (rowGet header (raw.map parseCell) c)))).map
          (recordOf header)
    ∧ ∀ raw ∈ rawRows,
        rowGet header (raw.map parseCell) "Country" = none →
        recordOf header raw ∉ out := by
  have hmaster := pipeline_eq_filter_map header rawRows hall
  rw [hout] at hmaster
  have hout2 : out = (rawRows.filter (keepRaw header)).map (recordOf header) :=
    Option.some.inj hmaster
  constructor
  · rw [hout2]
    congr 1
    apply List.filter_congr
    intro raw _
    exact keepRaw_eq_present header raw
  · intro raw hraw hcountry hmem
    rw [hout2] at hmem
    rcases List.mem_map.mp hmem with ⟨raw2, hraw2, heq⟩
    have hk2 : keepRaw header raw2 = true := List.of_mem_filter hraw2
    have hsome := keepRaw_col header raw2 "Country" (by decide) hk2
    have h1 := recordOf_lookup header raw2 "Country" (by decide)
    have h2 := recordOf_lookup header raw "Country" (by decide)
    rw [heq] at h1
    have hcells := Option.some.inj (h1.symm.trans h2)
    rw [hcells, hcountry] at hsome
    simp at hsome

theorem claim_C2_witness :
    ([wRecGood] : List Record)
      = (([wRowGood, wRowBad]).filter (fun raw => dropnaSubset.all
          (fun c => cellPresent (rowGet wHeader (raw.map parseCell) c)))).map
        (recordOf wHeader)
    ∧ ∀ raw ∈ [wRowGood, wRowBad],
        rowGet wHeader (raw.map parseCell) "Country" = none →
        recordOf wHeader raw ∉ ([wRecGood] : List Record) :=
  claim_C2 wHeader [wRowGood, wRowBad] [wRecGood] (by decide) (by decide)

/-- C3 (amended): the output record count never exceeds the input row
count, with equality iff no input row is null in any of the nine
columns the code actually checks (the dropna subset, AISelect
included). -/
theorem claim_C3_amended (header : List String) (rawRows : List (List String))
    (out : List Record)
    (hall : columns_for_viz.all (fun c => header.contains c) = true)
    (hout : pipeline header rawRows = some out) :
    out.length ≤ rawRows.length
    ∧ (out.length = rawRows.length ↔
        ∀ raw ∈ rawRows, keepRaw header raw = true) := by
  have hmaster := pipeline_eq_filter_map header rawRows hall
  rw [hout] at hmaster
  have hout2 : out = (rawRows.filter (keepRaw header)).map (recordOf header) :=
    Option.some.inj hmaster
  subst hout2
  rw [List.length_map]
  exact ⟨List.length_filter_le _ _, List.filter_length_eq_length⟩

theorem claim_C3_amended_witness :
    ([wRecGood] : List Record).length ≤ [wRowGood, wRowBad].length
    ∧ (([wRecGood] : List Record).length = [wRowGood, wRowBad].length ↔
        ∀ raw ∈ [wRowGood, wRowBad], keepRaw wHeader raw = true) :=
  claim_C3_amended wHeader [wRowGood, wRowBad] [wRecGood]
    (by decide) (by decide)

/-- C4: the output preserves the relative order of the surviving input
rows — the output record sequence is a subsequence of the input rows'
records taken in input order. -/
theorem claim_C4 (header : List String) (rawRows : List (List String))
    (out : List Record)
    (hall : columns_for_viz.all (fun c => header.contains c) = true)
    (hout : pipeline header rawRows = some out) :
    out.Sublist (rawRows.map (recordOf header)) := by
  have hmaster := pipeline_eq_filter_map header rawRows hall
  rw [hout] at hmaster
  have hout2 : out = (rawRows.filter (keepRaw header)).map (recordOf header) :=
    Option.some.inj hmaster
  rw [hout2]
  exact (List.filter_sublist rawRows).map (recordOf header)

theorem claim_C4_witness :
    ([wRecGood] : List Record).Sublist
      ([wRowGood, wRowBad].map (recordOf wHeader)) :=
  claim_C4 wHeader [wRowGood, wRowBad] [wRecGood] (by decide) (by decide)

/-- C5: every output record has exactly the ten keys of the selection
set, in the listed order, and no other keys. -/
theorem claim_C5 (header : List String) (rawRows : List (List String))
    (out : List Record)
    (hall : columns_for_viz.all (fun c => header.contains c) = true)
    (hout : pipeline header rawRows = some out) :
    ∀ rec ∈ out, rec.map Prod.fst = columns_for_viz := by
  have hmaster := pipeline_eq_filter_map header rawRows hall
  rw [hout] at hmaster
  have hout2 : out = (rawRows.filter (keepRaw header)).map (recordOf header) :=
    Option.some.inj hmaster
  subst hout2
  intro rec hrec
  rcases List.mem_map.mp hrec with ⟨raw, _, heq⟩
  rw [← heq]
  exact recordOf_keys header raw

theorem claim_C5_witness :
    wRecGood.map Prod.fst = columns_for_viz :=
  claim_C5 wHeader [wRowGood, wRowBad] [wRecGood] (by decide) (by decide)
    wRecGood (by decide)

/-- C6: projection succeeds exactly when every requested column is in
the source header — the KeyError-equivalent occurs iff some column is
absent — and on success the resulting table's columns are exactly the
ten requested ones, in order. -/
theorem claim_C6 (t : Table) :
    ((project t columns_for_viz).isSome = true ↔
        ∀ c ∈ columns_for_viz, c ∈ t.header)
    ∧ ∀ t2, project t columns_for_viz = some t2 →
        t2.header = columns_for_viz := by
  unfold project
  by_cases h : columns_for_viz.all (fun c => t.header.contains c) = true
  · rw [if_pos h]
    refine ⟨⟨fun _ c hc => ?_, fun _ => rfl⟩, fun t2 ht2 => ?_⟩
    · have := List.all_eq_true.mp h c hc
      simpa using this
    · rw [← Option.some.inj ht2]
  · rw [if_neg h]
    refine ⟨⟨fun hs => ?_, fun hmem => ?_⟩, fun t2 ht2 => Option.noConfusion ht2⟩
    · simp at hs
    · exact absurd (List.all_eq_true.mpr
        (fun c hc => by simpa using hmem c hc)) h

theorem claim_C6_witness :
    (project ⟨wHeader, []⟩ columns_for_viz).isSome = true
    ∧ (⟨columns_for_viz, []⟩ : Table).header = columns_for_viz :=
  ⟨(claim_C6 ⟨wHeader, []⟩).1.mpr (by decide),
   (claim_C6 ⟨wHeader, []⟩).2 ⟨columns_for_viz, []⟩ (by decide)⟩

/-- C7 (amended): the parsed serialized output has exactly as many
records as there are input rows passing the null check on the nine
columns the code actually checks (the dropna subset, AISelect
included). -/
theorem claim_C7_amended (header : List String) (rawRows : List (List String))
    (out : List Record)
    (hall : columns_for_viz.all (fun c => header.contains c) = true)
    (hout : pipeline header rawRows = some out) :
    out.length = rawRows.countP (keepRaw header) := by
  have hmaster := pipeline_eq_filter_map header rawRows hall
  rw [hout] at hmaster
  have hout2 : out = (rawRows.filter (keepRaw header)).map (recordOf header) :=
    Option.some.inj hmaster
  rw [hout2, List.length_map]
  exact (List.countP_eq_length_filter _ _).symm

theorem claim_C7_amended_witness :
    ([wRecGood] : List Record).length
      = [wRowGood, wRowBad].countP (keepRaw wHeader) :=
  claim_C7_amended wHeader [wRowGood, wRowBad] [wRecGood]
    (by decide) (by decide)

/-- A retained element of a list sits in the filtered list at the
position given by counting the retained elements before it. -/
lemma filter_getElem_countP {α : Type} (p : α → Bool) :
    ∀ (l : List α) (i : Nat) (hi : i < l.length),
      p (l.get ⟨i, hi⟩) = true →
      (l.filter p)[(l.take i).countP p]? = some (l.get ⟨i, hi⟩) := by
  intro l
  induction l with
  | nil => intro i hi; exact absurd hi (Nat.not_lt_zero i)
  | cons a tl ih =>
    intro i hi hp
    cases i with
    | zero =>
      have hpa : p a = true := hp
      simp [List.filter_cons, hpa]
    | succ n =>
      have hn : n < tl.length := Nat.lt_of_succ_lt_succ hi
      have hp2 : p (tl.get ⟨n, hn⟩) = true := hp
      have hrec := ih n hn hp2
      cases hpa : p a with
      | true =>
        simpa [List.take_succ_cons, List.countP_cons, List.filter_cons, hpa]
          using hrec
      | false =>
        simpa [List.take_succ_cons, List.countP_cons, List.filter_cons, hpa]
          using hrec

/-- C9: value preservation — for every surviving input row, the
corresponding output record (the one at the position given by counting
the earlier survivors) exists, and for each selected column it stores
exactly the cell value that row held in the loaded table; projection,
filtering and serialization never alter cell values. -/
theorem claim_C9 (header : List String) (rawRows : List (List String))
    (out : List Record)
    (hall : columns_for_viz.all (fun c => header.contains c) = true)
    (hout : pipeline header rawRows = some out) :
    ∀ (i : Nat) (hi : i < rawRows.length),
      keepRaw header (rawRows.get ⟨i, hi⟩) = true →
      ∀ c ∈ columns_for_viz,
        (out[(rawRows.take i).countP (keepRaw header)]?).bind (List.lookup c)
          = some (rowGet header ((rawRows.get ⟨i, hi⟩).map parseCell) c) := by
  have hmaster := pipeline_eq_filter_map header rawRows hall
  rw [hout] at hmaster
  have hout2 : out = (rawRows.filter (keepRaw header)).map (recordOf header) :=
    Option.some.inj hmaster
  subst hout2
  intro i hi hk c hc
  have hfe := filter_getElem_countP (keepRaw header) rawRows i hi hk
  rw [List.getElem?_map, hfe]
  simp only [Option.map_some', Option.some_bind]
  exact recordOf_lookup header (rawRows.get ⟨i, hi⟩) c hc

theorem claim_C9_witness :
    ((([wRecGood] : List Record))[(([wRowGood, wRowBad].take 0).countP
        (keepRaw wHeader))]?).bind (List.lookup "ConvertedCompYearly")
      = some (rowGet wHeader (wRowGood.map parseCell) "ConvertedCompYearly") :=
  claim_C9 wHeader [wRowGood, wRowBad] [wRecGood] (by decide) (by decide)
    0 (by decide) (by decide) "ConvertedCompYearly" (by decide)
